import Mathlib

/-!
# The rate-limiting HTTP middleware

A shallow embedding of `internal/http/middleware/ratelimiter.go`.

The handler is effectful Go code: it reads a request, calls the limiter
(a stateful object), and then either writes a response or invokes the next
handler.  It is embedded as a function that threads the limiter's state
explicitly and returns the list of the effects it performed, in order
(`Action`).  A limiter call is recorded together with what it returned.

The packages `config`, `limiter` and `util` are used by the file but are not
part of it; what the handler needs of them (the three configuration fields,
the two fields of `limiter.Result`, the two limiter operations and
`util.GetClientIP`) are taken as data and parameters.  The `net/http`
request is kept abstract: the handler only looks at it through
`r.Context()`, `r.Header.Get` and `util.GetClientIP`.

Go strings are modelled by Lean strings (sequences of Unicode code points),
`time.Duration` by an integer count of nanoseconds.
-/

namespace middleware

/-! ## Pieces of the Go standard library the handler uses -/

/-- Go `time.Second`: one second as a `time.Duration`, a count of nanoseconds. -/
def Second : Int := 1000000000

/-- Go `http.StatusTooManyRequests`. -/
def StatusTooManyRequests : Nat := 429

/-- Go `http.StatusInternalServerError`. -/
def StatusInternalServerError : Nat := 500

/-- Go `http.StatusText`, restricted to the two status codes this package
uses; every other code is outside the table kept here. -/
def StatusText (code : Nat) : String :=
  if code = 429 then "Too Many Requests"
  else if code = 500 then "Internal Server Error"
  else ""

/-- Go `unicode.IsSpace`: the Latin-1 space characters, and outside Latin-1
the code points with the Unicode White_Space property. -/
def IsSpace (c : Char) : Bool :=
  let r := c.toNat
  if r ≤ 0xFF then
    r == 0x09 || r == 0x0A || r == 0x0B || r == 0x0C || r == 0x0D ||
      r == 0x20 || r == 0x85 || r == 0xA0
  else
    r == 0x1680 || (0x2000 ≤ r && r ≤ 0x200A) || r == 0x2028 || r == 0x2029 ||
      r == 0x202F || r == 0x205F || r == 0x3000

/-- Go `strings.TrimSpace`: the string without its leading and trailing
white space. -/
def TrimSpace (s : String) : String :=
  String.mk ((s.data.dropWhile IsSpace).reverse.dropWhile IsSpace).reverse

/-- Width in bits of Go `int` (`strconv.IntSize`) on a 64-bit target. -/
def IntSize : Nat := 64

/-- The conversion `int(x)` of an integer value: two's complement wrap-around
to `IntSize` bits. -/
def toInt (x : Int) : Int :=
  (x + 2 ^ (IntSize - 1)) % 2 ^ IntSize - 2 ^ (IntSize - 1)

/-- Go `math.MinInt64`, the least `int64` (and least `time.Duration`). -/
def MinInt64 : Int := -9223372036854775808

/-- Go `math.MaxInt64`, the greatest `int64` (and greatest `time.Duration`). -/
def MaxInt64 : Int := 9223372036854775807

/-- Go `strconv.Itoa`: the decimal rendering of an `int`. -/
def Itoa (i : Int) : String :=
  if i < 0 then "-" ++ Nat.repr i.natAbs else Nat.repr i.natAbs

/-! ## Data of the collaborating packages -/

/-- The fields of `config.Config` the middleware reads. -/
structure Config where
  RateTokenHeader : String
  RateTokenEnabled : Bool
  RateIPEnabled : Bool
  deriving DecidableEq, Repr

/-- The fields of `limiter.Result` the middleware reads; `RetryAfter` is a
`time.Duration` (nanoseconds, an `int64`). -/
structure Result where
  Allowed : Bool
  RetryAfter : Int
  deriving DecidableEq, Repr

/-- A Go `error` value: `none` is `nil`, `some msg` a non-nil error. -/
abbrev error := Option String

/-- The two operations of `*limiter.Limiter` the middleware calls.  The
limiter is stateful, so each operation takes the limiter's state and returns
the new one next to its `(Result, error)` pair. -/
structure Limiter (Ctx σ : Type) where
  AllowByToken : Ctx → String → σ → (Result × error) × σ
  AllowByIP : Ctx → String → σ → (Result × error) × σ

/-- How the handler observes a request `r`: `r.Context()`,
`r.Header.Get(key)` and `util.GetClientIP(r)`. -/
structure RequestOps (Req Ctx : Type) where
  Context : Req → Ctx
  HeaderGet : Req → String → String
  GetClientIP : Req → String

/-- The `RateLimiterMiddleware` struct. -/
structure RateLimiterMiddleware (Ctx σ : Type) where
  cfg : Config
  limiter : Limiter Ctx σ

/-- The constructor `NewRateLimiterMiddleware`. -/
def NewRateLimiterMiddleware {Ctx σ : Type} (cfg : Config) (l : Limiter Ctx σ) :
    RateLimiterMiddleware Ctx σ :=
  { cfg := cfg, limiter := l }

/-! ## Effects -/

/-- One effect performed by the middleware. -/
inductive Action where
  /-- The call `m.limiter.AllowByToken(ctx, token)`, with the values it returned -/
  | AllowByToken (token : String) (res : Result) (err : error)
  /-- The call `m.limiter.AllowByIP(ctx, ip)`, with the values it returned -/
  | AllowByIP (ip : String) (res : Result) (err : error)
  /-- The call `next.ServeHTTP(w, r)` -/
  | ServeHTTP
  /-- The call `http.Error(w, msg, code)` -/
  | Error (msg : String) (code : Nat)
  /-- The call `w.Header().Set(key, value)` -/
  | HeaderSet (key value : String)
  /-- The call `w.WriteHeader(code)` -/
  | WriteHeader (code : Nat)
  /-- The call `w.Write([]byte(body))` -/
  | Write (body : String)
  deriving DecidableEq, Repr

/-! ## The handler -/

/-- The body written with a 429 answer. -/
def rejectionBody : String :=
  "you have reached the maximum number of requests or actions allowed within a certain time frame"

/-- The value of the local variable `retrySecs` when the header is set:
`int(res.RetryAfter / time.Second)` (Go's integer division truncates toward
zero), replaced by 1 when it is not positive. -/
def retrySecs (res : Result) : Int :=
  let retrySecs := toInt (Int.tdiv res.RetryAfter Second)
  if retrySecs ≤ 0 then 1 else retrySecs

/-- The part of the handler after the limiter call: what is done with the
`res, err` pair the call returned. -/
def respond (res : Result) (err : error) : List Action :=
  match err with
  | some _ =>
    [Action.Error (StatusText StatusInternalServerError) StatusInternalServerError]
  | none =>
    if !res.Allowed then
      [Action.HeaderSet "Retry-After" (Itoa (retrySecs res)),
       Action.WriteHeader StatusTooManyRequests,
       Action.Write rejectionBody]
    else
      [Action.ServeHTTP]

/-- The function `Handler(next)` returns, run on a request `r` with the
limiter in state `s`: the effects performed, in order, and the limiter's
state afterwards. -/
def Handler {Req Ctx σ : Type} (m : RateLimiterMiddleware Ctx σ) (ops : RequestOps Req Ctx)
    (r : Req) (s : σ) : List Action × σ :=
  let ctx := ops.Context r
  let token := TrimSpace (ops.HeaderGet r m.cfg.RateTokenHeader)
  if token ≠ "" ∧ m.cfg.RateTokenEnabled = true then
    let out := m.limiter.AllowByToken ctx token s
    (Action.AllowByToken token out.1.1 out.1.2 :: respond out.1.1 out.1.2, out.2)
  else if m.cfg.RateIPEnabled = true then
    let ip := ops.GetClientIP r
    let out := m.limiter.AllowByIP ctx ip s
    (Action.AllowByIP ip out.1.1 out.1.2 :: respond out.1.1 out.1.2, out.2)
  else
    ([Action.ServeHTTP], s)

/-- The exported method `(*RateLimiterMiddleware).AllowByToken`: the returned
`(Result, error)` pair, the effects performed and the limiter's state
afterwards. -/
def RateLimiterMiddleware.AllowByToken {Ctx σ : Type} (m : RateLimiterMiddleware Ctx σ)
    (ctx : Ctx) (token : String) (s : σ) : (Result × error) × List Action × σ :=
  let out := m.limiter.AllowByToken ctx token s
  (out.1, [Action.AllowByToken token out.1.1 out.1.2], out.2)

/-! ## Reading a list of effects -/

/-- The keys passed to `limiter.AllowByToken`, one per call. -/
def tokenCalls : List Action → List String
  | [] => []
  | Action.AllowByToken token _ _ :: as => token :: tokenCalls as
  | _ :: as => tokenCalls as

/-- The keys passed to `limiter.AllowByIP`, one per call. -/
def ipCalls : List Action → List String
  | [] => []
  | Action.AllowByIP ip _ _ :: as => ip :: ipCalls as
  | _ :: as => ipCalls as

/-- What the limiter calls returned, one pair per call of either operation. -/
def limiterResults : List Action → List (Result × error)
  | [] => []
  | Action.AllowByToken _ res err :: as => (res, err) :: limiterResults as
  | Action.AllowByIP _ res err :: as => (res, err) :: limiterResults as
  | _ :: as => limiterResults as

/-- How many times the next handler was invoked. -/
def nextCalls (as : List Action) : Nat :=
  as.count Action.ServeHTTP

/-- The effects on the response writer and the next handler: everything but
the limiter calls. -/
def responseActions : List Action → List Action
  | [] => []
  | Action.AllowByToken _ _ _ :: as => responseActions as
  | Action.AllowByIP _ _ _ :: as => responseActions as
  | a :: as => a :: responseActions as

/-- The values given to the `Retry-After` header, one per `Set`. -/
def retryAfterValues : List Action → List String
  | [] => []
  | Action.HeaderSet key value :: as =>
    if key = "Retry-After" then value :: retryAfterValues as else retryAfterValues as
  | _ :: as => retryAfterValues as

/-- The status codes written, by `WriteHeader` or by `http.Error`. -/
def statusCodes : List Action → List Nat
  | [] => []
  | Action.WriteHeader code :: as => code :: statusCodes as
  | Action.Error _ code :: as => code :: statusCodes as
  | _ :: as => statusCodes as

/-- The bodies written with `w.Write`. -/
def bodies : List Action → List String
  | [] => []
  | Action.Write body :: as => body :: bodies as
  | _ :: as => bodies as

/-! ## The specification's rounding -/

/-- The number of seconds the specification describes for the `Retry-After`
header: `ceil(retryAfter)` seconds, at least 1. -/
def specRetrySeconds (d : Int) : Int :=
  max 1 (-((-d) / Second))

/-! ## Concrete collaborators, to run the handler on -/

/-- A request reduced to its header lines and its remote address. -/
structure SimpleRequest where
  Header : List (String × String)
  RemoteAddr : String
  deriving DecidableEq, Repr

/-- Request operations on a `SimpleRequest`: the first header line of that
name (the empty string when there is none), the remote address as client IP. -/
def simpleOps : RequestOps SimpleRequest Unit where
  Context := fun _ => ()
  HeaderGet := fun r key => ((r.Header.lookup key).getD "")
  GetClientIP := fun r => r.RemoteAddr

/-- A limiter that answers every call with the same pair and counts its
calls in its state. -/
def fixedLimiter (res : Result) (err : error) : Limiter Unit Nat where
  AllowByToken := fun _ _ n => ((res, err), n + 1)
  AllowByIP := fun _ _ n => ((res, err), n + 1)

/-- Configuration with both modes enabled and the token in `X-Api-Key`. -/
def bothEnabled : Config :=
  { RateTokenHeader := "X-Api-Key", RateTokenEnabled := true, RateIPEnabled := true }

/-- Configuration with only the IP mode enabled. -/
def ipOnly : Config :=
  { RateTokenHeader := "X-Api-Key", RateTokenEnabled := false, RateIPEnabled := true }

/-- Configuration with only the token mode enabled. -/
def tokenOnly : Config :=
  { RateTokenHeader := "X-Api-Key", RateTokenEnabled := true, RateIPEnabled := false }

/-- The middleware over a configuration and a limiter of fixed answer. -/
def fixedMiddleware (cfg : Config) (res : Result) (err : error) : RateLimiterMiddleware Unit Nat :=
  NewRateLimiterMiddleware cfg (fixedLimiter res err)

/-- A request carrying a token surrounded by blanks. -/
def tokenRequest : SimpleRequest :=
  { Header := [("X-Api-Key", "  abc123 ")], RemoteAddr := "10.0.0.7" }

/-- A request without the token header. -/
def plainRequest : SimpleRequest :=
  { Header := [("Accept", "text/html")], RemoteAddr := "10.0.0.7" }

/-! ## Auxiliary facts -/

theorem TrimSpace_eq_empty_iff (s : String) :
    TrimSpace s = "" ↔ ∀ c ∈ s.data, IsSpace c = true := by
  unfold TrimSpace
  constructor
  · intro h
    have h1 : ((s.data.dropWhile IsSpace).reverse.dropWhile IsSpace).reverse = [] := by
      have := congrArg String.data h
      simpa using this
    have h2 : (s.data.dropWhile IsSpace).reverse.dropWhile IsSpace = [] := by
      simpa using h1
    rw [List.dropWhile_eq_nil_iff] at h2
    cases hd : s.data.dropWhile IsSpace with
    | nil => exact List.dropWhile_eq_nil_iff.mp hd
    | cons a l =>
      have ha : IsSpace a = true := h2 a (by simp [hd])
      have hne : s.data.dropWhile IsSpace ≠ [] := by simp [hd]
      have hna := List.head_dropWhile_not IsSpace s.data hne
      simp [hd, ha] at hna
  · intro h
    have hd : s.data.dropWhile IsSpace = [] := List.dropWhile_eq_nil_iff.mpr h
    simp [hd]

theorem tokenCalls_respond (res : Result) (err : error) : tokenCalls (respond res err) = [] := by
  rcases res with ⟨a, d⟩
  cases a <;> cases err <;> rfl

theorem ipCalls_respond (res : Result) (err : error) : ipCalls (respond res err) = [] := by
  rcases res with ⟨a, d⟩
  cases a <;> cases err <;> rfl

theorem limiterResults_respond (res : Result) (err : error) :
    limiterResults (respond res err) = [] := by
  rcases res with ⟨a, d⟩
  cases a <;> cases err <;> rfl

theorem responseActions_respond (res : Result) (err : error) :
    responseActions (respond res err) = respond res err := by
  rcases res with ⟨a, d⟩
  cases a <;> cases err <;> rfl

theorem respond_error (res : Result) (e : String) :
    respond res (some e) = [Action.Error "Internal Server Error" 500] := rfl

theorem respond_rejected (res : Result) (h : res.Allowed = false) :
    respond res none =
      [Action.HeaderSet "Retry-After" (Itoa (retrySecs res)), Action.WriteHeader 429,
       Action.Write rejectionBody] := by
  simp [respond, h, StatusTooManyRequests]

theorem nextCalls_respond (res : Result) (err : error) :
    nextCalls (respond res err) = if err = none ∧ res.Allowed = true then 1 else 0 := by
  rcases res with ⟨a, d⟩
  cases a <;> cases err <;> simp [respond, nextCalls]

/-- The three shapes a run of the handler can take. -/
theorem Handler_cases {Req Ctx σ : Type} (m : RateLimiterMiddleware Ctx σ)
    (ops : RequestOps Req Ctx) (r : Req) (s : σ) :
    (TrimSpace (ops.HeaderGet r m.cfg.RateTokenHeader) ≠ "" ∧ m.cfg.RateTokenEnabled = true ∧
      Handler m ops r s =
        (Action.AllowByToken (TrimSpace (ops.HeaderGet r m.cfg.RateTokenHeader))
            (m.limiter.AllowByToken (ops.Context r)
              (TrimSpace (ops.HeaderGet r m.cfg.RateTokenHeader)) s).1.1
            (m.limiter.AllowByToken (ops.Context r)
              (TrimSpace (ops.HeaderGet r m.cfg.RateTokenHeader)) s).1.2 ::
          respond
            (m.limiter.AllowByToken (ops.Context r)
              (TrimSpace (ops.HeaderGet r m.cfg.RateTokenHeader)) s).1.1
            (m.limiter.AllowByToken (ops.Context r)
              (TrimSpace (ops.HeaderGet r m.cfg.RateTokenHeader)) s).1.2,
         (m.limiter.AllowByToken (ops.Context r)
              (TrimSpace (ops.HeaderGet r m.cfg.RateTokenHeader)) s).2)) ∨
    (¬ (TrimSpace (ops.HeaderGet r m.cfg.RateTokenHeader) ≠ "" ∧
        m.cfg.RateTokenEnabled = true) ∧ m.cfg.RateIPEnabled = true ∧
      Handler m ops r s =
        (Action.AllowByIP (ops.GetClientIP r)
            (m.limiter.AllowByIP (ops.Context r) (ops.GetClientIP r) s).1.1
            (m.limiter.AllowByIP (ops.Context r) (ops.GetClientIP r) s).1.2 ::
          respond
            (m.limiter.AllowByIP (ops.Context r) (ops.GetClientIP r) s).1.1
            (m.limiter.AllowByIP (ops.Context r) (ops.GetClientIP r) s).1.2,
         (m.limiter.AllowByIP (ops.Context r) (ops.GetClientIP r) s).2)) ∨
    (¬ (TrimSpace (ops.HeaderGet r m.cfg.RateTokenHeader) ≠ "" ∧
        m.cfg.RateTokenEnabled = true) ∧ ¬ m.cfg.RateIPEnabled = true ∧
      Handler m ops r s = ([Action.ServeHTTP], s)) := by
  by_cases h1 : TrimSpace (ops.HeaderGet r m.cfg.RateTokenHeader) ≠ "" ∧
      m.cfg.RateTokenEnabled = true
  · left
    refine ⟨h1.1, h1.2, ?_⟩
    simp only [Handler, if_pos h1]
  · by_cases h2 : m.cfg.RateIPEnabled = true
    · right; left
      refine ⟨h1, h2, ?_⟩
      simp only [Handler, if_neg h1, if_pos h2]
    · right; right
      refine ⟨h1, h2, ?_⟩
      simp only [Handler, if_neg h1, if_neg h2]

theorem toInt_of_int64 (x : Int) (hlo : MinInt64 ≤ x) (hhi : x ≤ MaxInt64) : toInt x = x := by
  unfold MinInt64 at hlo
  unfold MaxInt64 at hhi
  unfold toInt IntSize
  norm_num
  omega

theorem tdiv_Second_of_nonneg (d : Int) (h : 0 ≤ d) : Int.tdiv d Second = d / Second :=
  Int.tdiv_eq_ediv h (by decide)

theorem tdiv_Second_of_neg (d : Int) (h : d < 0) : Int.tdiv d Second = -((-d) / Second) := by
  have h1 : Int.tdiv (-d) Second = (-d) / Second := Int.tdiv_eq_ediv (by omega) (by decide)
  have h2 : Int.tdiv d Second = -(Int.tdiv (-d) Second) := by
    rw [Int.neg_tdiv]; simp
  rw [h2, h1]

/-- On an `int64` duration the conversion to `int` changes nothing, and
`retrySecs` is the floor of the quotient, raised to 1. -/
theorem retrySecs_eq_floor (res : Result) (hlo : MinInt64 ≤ res.RetryAfter)
    (hhi : res.RetryAfter ≤ MaxInt64) :
    retrySecs res = max 1 (res.RetryAfter / Second) := by
  unfold retrySecs
  unfold MinInt64 at hlo
  unfold MaxInt64 at hhi
  rcases lt_or_le res.RetryAfter 0 with hneg | hnn
  · rw [tdiv_Second_of_neg _ hneg]
    have hq : 0 ≤ (-res.RetryAfter) / Second := Int.ediv_nonneg (by omega) (by decide)
    have hq2 : (-res.RetryAfter) / Second ≤ 9223372036854775807 := by
      unfold Second; omega
    have hf : res.RetryAfter / Second ≤ 0 := by unfold Second; omega
    rw [toInt_of_int64 _ (by unfold MinInt64; omega) (by unfold MaxInt64; omega)]
    simp only [max_def]
    split_ifs <;> omega
  · rw [tdiv_Second_of_nonneg _ hnn]
    have hq : 0 ≤ res.RetryAfter / Second := Int.ediv_nonneg hnn (by decide)
    have hq2 : res.RetryAfter / Second ≤ 9223372036854775807 := by
      unfold Second; omega
    rw [toInt_of_int64 _ (by unfold MinInt64; omega) (by unfold MaxInt64; omega)]
    simp only [max_def]
    split_ifs <;> omega

theorem one_le_retrySecs (res : Result) : 1 ≤ retrySecs res := by
  unfold retrySecs
  simp only
  split_ifs <;> omega

theorem Itoa_of_pos (n : Int) (h : 1 ≤ n) : Itoa n = Nat.repr n.toNat := by
  unfold Itoa
  have h1 : ¬ n < 0 := by omega
  have h2 : n.natAbs = n.toNat := by omega
  simp [h1, h2]

theorem retryAfterValues_respond_rejected (res : Result) (h : res.Allowed = false) :
    retryAfterValues (respond res none) = [Itoa (retrySecs res)] := by
  rw [respond_rejected res h]
  simp [retryAfterValues]

/-- A run in which a limiter call returned `(res, err)` consists of that call
(by token or by IP) followed by `respond res err`. -/
theorem Handler_trace_of_limiterResult {Req Ctx σ : Type} (m : RateLimiterMiddleware Ctx σ)
    (ops : RequestOps Req Ctx) (r : Req) (s : σ) (res : Result) (err : error)
    (h : (res, err) ∈ limiterResults (Handler m ops r s).1) :
    (Handler m ops r s).1 =
        Action.AllowByToken (TrimSpace (ops.HeaderGet r m.cfg.RateTokenHeader)) res err ::
          respond res err ∨
    (Handler m ops r s).1 = Action.AllowByIP (ops.GetClientIP r) res err :: respond res err := by
  rcases Handler_cases m ops r s with ⟨_, _, hH⟩ | ⟨_, _, hH⟩ | ⟨_, _, hH⟩
  · rw [hH] at h ⊢
    simp only [limiterResults, limiterResults_respond, List.mem_singleton] at h
    rw [Prod.mk.injEq] at h
    rw [← h.1, ← h.2]
    exact Or.inl rfl
  · rw [hH] at h ⊢
    simp only [limiterResults, limiterResults_respond, List.mem_singleton] at h
    rw [Prod.mk.injEq] at h
    rw [← h.1, ← h.2]
    exact Or.inr rfl
  · rw [hH] at h
    simp [limiterResults] at h

/-! ## The claims -/

/-- C1: token identification takes priority.  When both modes are enabled and
the header named by `RateTokenHeader` is non-empty after trimming, the
handler calls `limiter.AllowByToken` exactly once, with the trimmed header
value as key (on the request's context and the limiter's current state),
and never calls `limiter.AllowByIP`. -/
theorem token_identification_takes_priority {Req Ctx σ : Type}
    (m : RateLimiterMiddleware Ctx σ) (ops : RequestOps Req Ctx) (r : Req) (s : σ)
    (hTok : m.cfg.RateTokenEnabled = true) (hIP : m.cfg.RateIPEnabled = true)
    (hHdr : TrimSpace (ops.HeaderGet r m.cfg.RateTokenHeader) ≠ "") :
    tokenCalls (Handler m ops r s).1 = [TrimSpace (ops.HeaderGet r m.cfg.RateTokenHeader)] ∧
    ipCalls (Handler m ops r s).1 = [] ∧
    (Handler m ops r s).2 =
      (m.limiter.AllowByToken (ops.Context r)
        (TrimSpace (ops.HeaderGet r m.cfg.RateTokenHeader)) s).2 := by
  have _ := hIP
  rcases Handler_cases m ops r s with ⟨_, _, hH⟩ | ⟨h1, _, _⟩ | ⟨h1, _, _⟩
  · rw [hH]
    simp [tokenCalls, ipCalls, tokenCalls_respond, ipCalls_respond]
  · exact absurd ⟨hHdr, hTok⟩ h1
  · exact absurd ⟨hHdr, hTok⟩ h1

theorem token_identification_takes_priority_witness :
    tokenCalls (Handler (fixedMiddleware bothEnabled ⟨true, 0⟩ none) simpleOps tokenRequest 0).1 =
      ["abc123"] ∧
    ipCalls (Handler (fixedMiddleware bothEnabled ⟨true, 0⟩ none) simpleOps tokenRequest 0).1 =
      [] ∧
    (Handler (fixedMiddleware bothEnabled ⟨true, 0⟩ none) simpleOps tokenRequest 0).2 = 1 :=
  token_identification_takes_priority (fixedMiddleware bothEnabled ⟨true, 0⟩ none) simpleOps
    tokenRequest 0 rfl rfl (by decide)

/-- C7: a disabled mode's limiter operation is never invoked.  The handler
calls `limiter.AllowByToken` only if `RateTokenEnabled` is true and calls
`limiter.AllowByIP` only if `RateIPEnabled` is true. -/
theorem disabled_mode_never_invoked {Req Ctx σ : Type}
    (m : RateLimiterMiddleware Ctx σ) (ops : RequestOps Req Ctx) (r : Req) (s : σ) :
    (tokenCalls (Handler m ops r s).1 ≠ [] → m.cfg.RateTokenEnabled = true) ∧
    (ipCalls (Handler m ops r s).1 ≠ [] → m.cfg.RateIPEnabled = true) := by
  rcases Handler_cases m ops r s with ⟨_, h2, hH⟩ | ⟨_, h2, hH⟩ | ⟨_, _, hH⟩
  · rw [hH]
    simp [tokenCalls, ipCalls, tokenCalls_respond, ipCalls_respond, h2]
  · rw [hH]
    simp [tokenCalls, ipCalls, tokenCalls_respond, ipCalls_respond, h2]
  · rw [hH]
    simp [tokenCalls, ipCalls]

/-- C9: fallback to the client address.  When the token header is absent,
empty or made of white space only (every character of the value
`r.Header.Get` returns is a space character), or token mode is disabled, and
IP mode is enabled, the handler calls `limiter.AllowByIP` exactly once, with
`util.GetClientIP(r)` as key, and never calls `limiter.AllowByToken`. -/
theorem fallback_to_client_address {Req Ctx σ : Type}
    (m : RateLimiterMiddleware Ctx σ) (ops : RequestOps Req Ctx) (r : Req) (s : σ)
    (hNoToken : (∀ c ∈ (ops.HeaderGet r m.cfg.RateTokenHeader).data, IsSpace c = true) ∨
      m.cfg.RateTokenEnabled = false)
    (hIP : m.cfg.RateIPEnabled = true) :
    ipCalls (Handler m ops r s).1 = [ops.GetClientIP r] ∧
    tokenCalls (Handler m ops r s).1 = [] ∧
    (Handler m ops r s).2 = (m.limiter.AllowByIP (ops.Context r) (ops.GetClientIP r) s).2 := by
  have hno : ¬ (TrimSpace (ops.HeaderGet r m.cfg.RateTokenHeader) ≠ "" ∧
      m.cfg.RateTokenEnabled = true) := by
    rintro ⟨hne, hen⟩
    rcases hNoToken with hsp | hdis
    · exact hne ((TrimSpace_eq_empty_iff _).mpr hsp)
    · rw [hdis] at hen
      exact Bool.noConfusion hen
  rcases Handler_cases m ops r s with ⟨h1, h2, _⟩ | ⟨_, _, hH⟩ | ⟨_, h2, _⟩
  · exact absurd ⟨h1, h2⟩ hno
  · rw [hH]
    simp [tokenCalls, ipCalls, tokenCalls_respond, ipCalls_respond]
  · exact absurd hIP h2

theorem fallback_to_client_address_witness :
    ipCalls (Handler (fixedMiddleware bothEnabled ⟨true, 0⟩ none) simpleOps plainRequest 0).1 =
      ["10.0.0.7"] ∧
    tokenCalls (Handler (fixedMiddleware bothEnabled ⟨true, 0⟩ none) simpleOps plainRequest 0).1 =
      [] ∧
    (Handler (fixedMiddleware bothEnabled ⟨true, 0⟩ none) simpleOps plainRequest 0).2 = 1 :=
  fallback_to_client_address (fixedMiddleware bothEnabled ⟨true, 0⟩ none) simpleOps
    plainRequest 0 (Or.inl (by decide)) rfl

/-- C5: limiter errors fail closed.  When the limiter operation the handler
invoked returned a non-nil error, whatever `Result` came with it, the handler
answers through `http.Error` with status 500 and its standard text, does
nothing else on the response, and never invokes the next handler. -/
theorem limiter_error_fails_closed {Req Ctx σ : Type}
    (m : RateLimiterMiddleware Ctx σ) (ops : RequestOps Req Ctx) (r : Req) (s : σ)
    (res : Result) (e : String)
    (hErr : (res, some e) ∈ limiterResults (Handler m ops r s).1) :
    statusCodes (Handler m ops r s).1 = [500] ∧
    nextCalls (Handler m ops r s).1 = 0 ∧
    responseActions (Handler m ops r s).1 = [Action.Error "Internal Server Error" 500] := by
  rcases Handler_trace_of_limiterResult m ops r s res (some e) hErr with hH | hH
  · rw [hH, respond_error]
    simp [statusCodes, nextCalls, responseActions]
  · rw [hH, respond_error]
    simp [statusCodes, nextCalls, responseActions]

theorem limiter_error_fails_closed_witness :
    statusCodes (Handler (fixedMiddleware bothEnabled ⟨true, 0⟩ (some "store down")) simpleOps
      tokenRequest 0).1 = [500] ∧
    nextCalls (Handler (fixedMiddleware bothEnabled ⟨true, 0⟩ (some "store down")) simpleOps
      tokenRequest 0).1 = 0 ∧
    responseActions (Handler (fixedMiddleware bothEnabled ⟨true, 0⟩ (some "store down"))
      simpleOps tokenRequest 0).1 = [Action.Error "Internal Server Error" 500] :=
  limiter_error_fails_closed (fixedMiddleware bothEnabled ⟨true, 0⟩ (some "store down"))
    simpleOps tokenRequest 0 ⟨true, 0⟩ "store down" (by decide)

/-- C6: a rejected request is answered and not forwarded.  When the limiter
returned a nil error and `Allowed = false`, the handler sets `Retry-After`,
writes status 429 and then the fixed body, the same for every key, mode and
`RetryAfter`, and never invokes the next handler. -/
theorem rejected_is_answered_not_forwarded {Req Ctx σ : Type}
    (m : RateLimiterMiddleware Ctx σ) (ops : RequestOps Req Ctx) (r : Req) (s : σ)
    (res : Result)
    (hRes : (res, none) ∈ limiterResults (Handler m ops r s).1)
    (hRej : res.Allowed = false) :
    statusCodes (Handler m ops r s).1 = [429] ∧
    bodies (Handler m ops r s).1 =
      ["you have reached the maximum number of requests or actions allowed within a certain time frame"] ∧
    nextCalls (Handler m ops r s).1 = 0 ∧
    responseActions (Handler m ops r s).1 =
      [Action.HeaderSet "Retry-After" (Itoa (retrySecs res)), Action.WriteHeader 429,
       Action.Write rejectionBody] := by
  rcases Handler_trace_of_limiterResult m ops r s res none hRes with hH | hH
  · rw [hH, respond_rejected res hRej]
    simp [statusCodes, nextCalls, responseActions, bodies, rejectionBody]
  · rw [hH, respond_rejected res hRej]
    simp [statusCodes, nextCalls, responseActions, bodies, rejectionBody]

theorem rejected_is_answered_not_forwarded_witness :
    statusCodes (Handler (fixedMiddleware ipOnly ⟨false, 800000000⟩ none) simpleOps
      tokenRequest 0).1 = [429] ∧
    bodies (Handler (fixedMiddleware ipOnly ⟨false, 800000000⟩ none) simpleOps
      tokenRequest 0).1 =
      ["you have reached the maximum number of requests or actions allowed within a certain time frame"] ∧
    nextCalls (Handler (fixedMiddleware ipOnly ⟨false, 800000000⟩ none) simpleOps
      tokenRequest 0).1 = 0 ∧
    responseActions (Handler (fixedMiddleware ipOnly ⟨false, 800000000⟩ none) simpleOps
      tokenRequest 0).1 =
      [Action.HeaderSet "Retry-After" (Itoa (retrySecs ⟨false, 800000000⟩)),
       Action.WriteHeader 429, Action.Write rejectionBody] :=
  rejected_is_answered_not_forwarded (fixedMiddleware ipOnly ⟨false, 800000000⟩ none) simpleOps
    tokenRequest 0 ⟨false, 800000000⟩ (by decide) rfl

/-- C10: forwarding is decided exactly by the admission outcome.  The handler
makes at most one limiter call and invokes the next handler at most once; it
invokes it if and only if either no mode applies (the trimmed token is empty
or token mode is off, and IP mode is off) or the single limiter call returned
a nil error with `Allowed = true`.  When no mode applies the handler does
nothing but invoke the next handler: no limiter call (the limiter's state is
unchanged) and no status, header or body of its own. -/
theorem forwarding_decided_by_admission {Req Ctx σ : Type}
    (m : RateLimiterMiddleware Ctx σ) (ops : RequestOps Req Ctx) (r : Req) (s : σ) :
    (limiterResults (Handler m ops r s).1).length ≤ 1 ∧
    nextCalls (Handler m ops r s).1 ≤ 1 ∧
    (nextCalls (Handler m ops r s).1 = 1 ↔
      ((¬ (TrimSpace (ops.HeaderGet r m.cfg.RateTokenHeader) ≠ "" ∧
            m.cfg.RateTokenEnabled = true) ∧ ¬ m.cfg.RateIPEnabled = true) ∨
        ∃ res : Result,
          limiterResults (Handler m ops r s).1 = [(res, none)] ∧ res.Allowed = true)) ∧
    ((¬ (TrimSpace (ops.HeaderGet r m.cfg.RateTokenHeader) ≠ "" ∧
            m.cfg.RateTokenEnabled = true) ∧ ¬ m.cfg.RateIPEnabled = true) →
      Handler m ops r s = ([Action.ServeHTTP], s)) := by
  rcases Handler_cases m ops r s with ⟨h1, h2, hH⟩ | ⟨h1, h2, hH⟩ | ⟨h1, h2, hH⟩
  · rw [hH]
    generalize (m.limiter.AllowByToken (ops.Context r)
      (TrimSpace (ops.HeaderGet r m.cfg.RateTokenHeader)) s) = out
    rcases out with ⟨⟨res, err⟩, s1⟩
    have hn : nextCalls (Action.AllowByToken (TrimSpace (ops.HeaderGet r m.cfg.RateTokenHeader))
        res err :: respond res err) = nextCalls (respond res err) := by
      simp [nextCalls]
    simp only [limiterResults, limiterResults_respond, hn, nextCalls_respond]
    refine ⟨by simp, by split_ifs <;> omega, ?_, ?_⟩
    · constructor
      · intro h
        split_ifs at h with hc
        exact Or.inr ⟨res, by rw [hc.1], hc.2⟩
      · rintro (⟨hno, _⟩ | ⟨res1, heq, hal⟩)
        · exact absurd ⟨h1, h2⟩ hno
        · simp only [List.cons.injEq, Prod.mk.injEq, and_true] at heq
          rw [if_pos ⟨heq.2, by rw [heq.1]; exact hal⟩]
    · rintro ⟨hno, _⟩
      exact absurd ⟨h1, h2⟩ hno
  · rw [hH]
    generalize (m.limiter.AllowByIP (ops.Context r) (ops.GetClientIP r) s) = out
    rcases out with ⟨⟨res, err⟩, s1⟩
    have hn : nextCalls (Action.AllowByIP (ops.GetClientIP r) res err :: respond res err) =
        nextCalls (respond res err) := by
      simp [nextCalls]
    simp only [limiterResults, limiterResults_respond, hn, nextCalls_respond]
    refine ⟨by simp, by split_ifs <;> omega, ?_, ?_⟩
    · constructor
      · intro h
        split_ifs at h with hc
        exact Or.inr ⟨res, by rw [hc.1], hc.2⟩
      · rintro (⟨_, hno⟩ | ⟨res1, heq, hal⟩)
        · exact absurd h2 hno
        · simp only [List.cons.injEq, Prod.mk.injEq, and_true] at heq
          rw [if_pos ⟨heq.2, by rw [heq.1]; exact hal⟩]
    · rintro ⟨_, hno⟩
      exact absurd h2 hno
  · rw [hH]
    refine ⟨by simp [limiterResults], by simp [nextCalls], ?_, fun _ => rfl⟩
    constructor
    · intro _
      exact Or.inl ⟨h1, h2⟩
    · intro _
      simp [nextCalls]

/-- C2 does not hold as stated: the limiter rejects with `RetryAfter` of 1.5
seconds; the specification's `max(1, ceil(d / 1e9))` is 2, and the handler
sets `Retry-After` to `"1"`. -/
theorem retry_after_is_not_ceil :
    ((⟨false, 1500000000⟩, none) ∈
      limiterResults (Handler (fixedMiddleware bothEnabled ⟨false, 1500000000⟩ none) simpleOps
        tokenRequest 0).1) ∧
    Itoa (specRetrySeconds 1500000000) = "2" ∧
    retryAfterValues (Handler (fixedMiddleware bothEnabled ⟨false, 1500000000⟩ none) simpleOps
      tokenRequest 0).1 = ["1"] ∧
    retryAfterValues (Handler (fixedMiddleware bothEnabled ⟨false, 1500000000⟩ none) simpleOps
      tokenRequest 0).1 ≠ [Itoa (specRetrySeconds 1500000000)] := by
  decide

/-- C2, amended: on rejection the `Retry-After` header is `floor(retryAfter)`
seconds with a minimum of 1.  For every limiter result with `Allowed = false`,
a nil error and an `int64` `RetryAfter` of `d` nanoseconds, the handler sets
the header, once, to the decimal rendering of `max(1, floor(d / 1e9))`. -/
theorem retry_after_is_floor_seconds {Req Ctx σ : Type}
    (m : RateLimiterMiddleware Ctx σ) (ops : RequestOps Req Ctx) (r : Req) (s : σ)
    (res : Result)
    (hRes : (res, none) ∈ limiterResults (Handler m ops r s).1)
    (hRej : res.Allowed = false)
    (hlo : MinInt64 ≤ res.RetryAfter) (hhi : res.RetryAfter ≤ MaxInt64) :
    retryAfterValues (Handler m ops r s).1 = [Itoa (max 1 (res.RetryAfter / Second))] := by
  rw [← retrySecs_eq_floor res hlo hhi]
  rcases Handler_trace_of_limiterResult m ops r s res none hRes with hH | hH
  · rw [hH]
    simp [retryAfterValues, retryAfterValues_respond_rejected res hRej]
  · rw [hH]
    simp [retryAfterValues, retryAfterValues_respond_rejected res hRej]

theorem retry_after_is_floor_seconds_witness :
    retryAfterValues (Handler (fixedMiddleware bothEnabled ⟨false, 3999999999⟩ none) simpleOps
      tokenRequest 0).1 = [Itoa (max 1 (3999999999 / Second))] ∧
    Itoa (max 1 (3999999999 / Second)) = "3" :=
  ⟨retry_after_is_floor_seconds (fixedMiddleware bothEnabled ⟨false, 3999999999⟩ none) simpleOps
    tokenRequest 0 ⟨false, 3999999999⟩ (by decide) rfl (by decide) (by decide), by decide⟩

/-- C3 does not hold as stated: the limiter rejects by IP with `RetryAfter` of
2.5 seconds; the handler writes 2 in `Retry-After`, and 2 seconds are less
than the 2.5 the limiter asked for. -/
theorem retry_hint_can_be_shorter :
    ((⟨false, 2500000000⟩, none) ∈
      limiterResults (Handler (fixedMiddleware ipOnly ⟨false, 2500000000⟩ none) simpleOps
        plainRequest 0).1) ∧
    retryAfterValues (Handler (fixedMiddleware ipOnly ⟨false, 2500000000⟩ none) simpleOps
      plainRequest 0).1 = [Itoa (retrySecs ⟨false, 2500000000⟩)] ∧
    retrySecs ⟨false, 2500000000⟩ = 2 ∧
    retryAfterValues (Handler (fixedMiddleware ipOnly ⟨false, 2500000000⟩ none) simpleOps
      plainRequest 0).1 = ["2"] ∧
    ¬ (retrySecs ⟨false, 2500000000⟩ * Second ≥ 2500000000) := by
  decide

/-- C3, amended: the `Retry-After` hint falls short of the limiter's minimum
wait by less than one second.  For every rejected result with an `int64`
`RetryAfter` of `d`, the number of seconds `n` the handler writes satisfies
`(n + 1) * 1s > d`; and `n * 1s >= d` when `d` is at most one second or a
whole number of seconds. -/
theorem retry_hint_short_by_less_than_a_second {Req Ctx σ : Type}
    (m : RateLimiterMiddleware Ctx σ) (ops : RequestOps Req Ctx) (r : Req) (s : σ)
    (res : Result)
    (hRes : (res, none) ∈ limiterResults (Handler m ops r s).1)
    (hRej : res.Allowed = false)
    (hlo : MinInt64 ≤ res.RetryAfter) (hhi : res.RetryAfter ≤ MaxInt64) :
    retryAfterValues (Handler m ops r s).1 = [Itoa (retrySecs res)] ∧
    res.RetryAfter < (retrySecs res + 1) * Second ∧
    ((res.RetryAfter ≤ Second ∨ Second ∣ res.RetryAfter) →
      res.RetryAfter ≤ retrySecs res * Second) := by
  refine ⟨?_, ?_, ?_⟩
  · rcases Handler_trace_of_limiterResult m ops r s res none hRes with hH | hH
    · rw [hH]
      simp [retryAfterValues, retryAfterValues_respond_rejected res hRej]
    · rw [hH]
      simp [retryAfterValues, retryAfterValues_respond_rejected res hRej]
  · rw [retrySecs_eq_floor res hlo hhi]
    unfold Second
    simp only [max_def]
    split_ifs <;> omega
  · rw [retrySecs_eq_floor res hlo hhi]
    unfold Second
    simp only [max_def]
    intro h
    split_ifs <;> omega

theorem retry_hint_short_by_less_than_a_second_witness :
    retryAfterValues (Handler (fixedMiddleware ipOnly ⟨false, 3000000000⟩ none) simpleOps
      tokenRequest 0).1 = [Itoa (retrySecs ⟨false, 3000000000⟩)] ∧
    (3000000000 : Int) < (retrySecs ⟨false, 3000000000⟩ + 1) * Second ∧
    (((3000000000 : Int) ≤ Second ∨ Second ∣ (3000000000 : Int)) →
      (3000000000 : Int) ≤ retrySecs ⟨false, 3000000000⟩ * Second) :=
  retry_hint_short_by_less_than_a_second (fixedMiddleware ipOnly ⟨false, 3000000000⟩ none)
    simpleOps tokenRequest 0 ⟨false, 3000000000⟩ (by decide) rfl (by decide) (by decide)

/-- C4: the reported retry hint is at least 1 second.  For every rejected
result and every integer `RetryAfter` (zero, sub-second and negative values
included, and so every `int64`), the handler sets `Retry-After` once, to the
decimal rendering of an integer that is at least 1 (an unsigned numeral). -/
theorem retry_hint_at_least_one {Req Ctx σ : Type}
    (m : RateLimiterMiddleware Ctx σ) (ops : RequestOps Req Ctx) (r : Req) (s : σ)
    (res : Result)
    (hRes : (res, none) ∈ limiterResults (Handler m ops r s).1)
    (hRej : res.Allowed = false) :
    retryAfterValues (Handler m ops r s).1 = [Itoa (retrySecs res)] ∧
    1 ≤ retrySecs res ∧
    Itoa (retrySecs res) = Nat.repr (retrySecs res).toNat := by
  refine ⟨?_, one_le_retrySecs res, Itoa_of_pos _ (one_le_retrySecs res)⟩
  rcases Handler_trace_of_limiterResult m ops r s res none hRes with hH | hH
  · rw [hH]
    simp [retryAfterValues, retryAfterValues_respond_rejected res hRej]
  · rw [hH]
    simp [retryAfterValues, retryAfterValues_respond_rejected res hRej]

theorem retry_hint_at_least_one_witness :
    retryAfterValues (Handler (fixedMiddleware tokenOnly ⟨false, -1500000000⟩ none) simpleOps
      tokenRequest 0).1 = [Itoa (retrySecs ⟨false, -1500000000⟩)] ∧
    1 ≤ retrySecs ⟨false, -1500000000⟩ ∧
    Itoa (retrySecs ⟨false, -1500000000⟩) = Nat.repr (retrySecs ⟨false, -1500000000⟩).toNat :=
  retry_hint_at_least_one (fixedMiddleware tokenOnly ⟨false, -1500000000⟩ none) simpleOps
    tokenRequest 0 ⟨false, -1500000000⟩ (by decide) rfl

/-- On the handler's path the token given to `limiter.AllowByToken` is never
empty. -/
theorem Handler_token_nonempty {Req Ctx σ : Type}
    (m : RateLimiterMiddleware Ctx σ) (ops : RequestOps Req Ctx) (r : Req) (s : σ) :
    ∀ t ∈ tokenCalls (Handler m ops r s).1, t ≠ "" := by
  rcases Handler_cases m ops r s with ⟨h1, _, hH⟩ | ⟨_, _, hH⟩ | ⟨_, _, hH⟩
  · rw [hH]
    simpa [tokenCalls, tokenCalls_respond] using h1
  · rw [hH]
    simp [tokenCalls, tokenCalls_respond]
  · rw [hH]
    simp [tokenCalls]

/-- The exported method hands the token it is given to `limiter.AllowByToken`
as it is, and returns what the limiter returned. -/
theorem AllowByToken_forwards_token {Ctx σ : Type} (m : RateLimiterMiddleware Ctx σ)
    (ctx : Ctx) (token : String) (s : σ) :
    tokenCalls (m.AllowByToken ctx token s).2.1 = [token] ∧
    (m.AllowByToken ctx token s).1 = (m.limiter.AllowByToken ctx token s).1 ∧
    (m.AllowByToken ctx token s).2.2 = (m.limiter.AllowByToken ctx token s).2 :=
  ⟨rfl, rfl, rfl⟩

/-- C8: the facade is to filter empty token keys before calling the core.  The
exported method `AllowByToken` does not: given the empty token it calls
`limiter.AllowByToken` with the empty token. -/
theorem exported_AllowByToken_passes_empty_token :
    tokenCalls ((fixedMiddleware bothEnabled ⟨true, 0⟩ none).AllowByToken () "" 0).2.1 = [""] ∧
    ((fixedMiddleware bothEnabled ⟨true, 0⟩ none).AllowByToken () "" 0).2.2 = 1 := by
  decide

end middleware
